import Mathlib

/-!
Shallow embedding of the SQLite-backed data store
(`lib/data_stores/sqlite_data_store.py`).

The store keeps, per subject, a `tbl` table of versioned attribute cells
`(subject, predicate, timestamp, value)` and a `lock` table
`(subject PRIMARY KEY, expires, token)`.  The Python layer is modelled as
pure functions: machine byte strings become `String` (Python 2 `str` and
the utf-8 encoded form of `unicode` carry the same character content, so
`SmartStr`/`SmartUnicode` become content-preserving tags), SQLite rows
become lists, Python exceptions become `Except Err`, and the in-place
mutation of the caller's `to_delete` list is made explicit by returning
the final list.  `time.time()` is passed in as an explicit `now`
parameter.  Regex predicate filtering (`REGEXP`, implemented by
`re.search`) is modelled for metacharacter-free patterns, for which
`re.search` is exactly substring search.
-/

/-- Python-level exceptions raised by the modelled code paths.
`valueError` is the raw parse failure raised by `int()`/`long()`;
`typeError` is `long()` applied to a non-numeric object; `ioError`
covers the `IOError`s raised explicitly by the source.  `decodeError`
is modelled from the spec: the spec's error taxonomy names a typed
`DecodeError` for type-hint decode failures, but no such exception
class exists in the source, which raises the raw `ValueError` instead;
the constructor exists only so that the two can be compared. -/
inductive Err where
  | accessDenied
  | transactionError (msg : String)
  | valueError
  | typeError
  | ioError (msg : String)
  | decodeError
deriving DecidableEq

/-- Decidable equality of `Except` results, so concrete runs of the
model can be checked by `decide`. -/
instance {ε α : Type} [DecidableEq ε] [DecidableEq α] : DecidableEq (Except ε α) := fun x y =>
  match x, y with
  | .ok a, .ok b => decidable_of_iff (a = b) (by simp)
  | .error a, .error b => decidable_of_iff (a = b) (by simp)
  | .ok _, .error _ => isFalse (by simp)
  | .error _, .ok _ => isFalse (by simp)

/-- A Python value as it reaches `_Encode`/`_Decode`: a byte string
(`str`), a unicode string (utf-8 content), an integer, or an object
exposing `SerializeToString` (whose serialization is the carried
bytes). -/
inductive PyVal where
  | str (s : String)
  | uni (s : String)
  | int (n : Int)
  | proto (bytes : String)
deriving DecidableEq

/-- One entry of a `MultiSet` values sequence: either a bare value
(uses the call's resolved timestamp) or an explicit
`(value, timestamp)` pair, whose second component is an arbitrary
Python value handed to `long()` (a pair carrying `None` falls back to
the default timestamp). -/
inductive SetEntry where
  | bare (v : PyVal)
  | pair (v : PyVal) (ts : Option PyVal)
deriving DecidableEq

/-- The timestamp argument of the resolve operations: the
`ALL_TIMESTAMPS` sentinel (or `None`), the `NEWEST_TIMESTAMP` sentinel,
or an explicit `(start, end)` range, as dispatched by
`_GetStartEndTimestamp`. -/
inductive TsQuery where
  | all
  | newest
  | range (s e : Int)
deriving DecidableEq

/-- Is the byte list `pat` a prefix of `s`? -/
def isPrefixChars : List Char → List Char → Bool
  | [], _ => true
  | _ :: _, [] => false
  | a :: as, b :: bs => a == b && isPrefixChars as bs

/-- Does `pat` occur as a contiguous substring of `s`? -/
def containsSub (pat : List Char) : List Char → Bool
  | [] => isPrefixChars pat []
  | c :: rest => isPrefixChars pat (c :: rest) || containsSub pat rest

/-- The `REGEXP` SQL function installed by `SqliteConnection`:
`re.search(expr, item) is not None`.  Modelled for metacharacter-free
patterns, on which `re.search` is unanchored substring search (the
empty pattern matches everything, as in Python). -/
def reSearch (expr item : String) : Bool :=
  containsSub expr.toList item.toList

/-- Decimal digit value of a character, `none` for non-digits. -/
def digitVal (c : Char) : Option Nat :=
  if '0' ≤ c ∧ c ≤ '9' then some (c.toNat - '0'.toNat) else none

/-- Accumulate a base-10 number over a digit list; `none` on the first
non-digit. -/
def digitsAcc (acc : Nat) : List Char → Option Nat
  | [] => some acc
  | c :: rest =>
      match digitVal c with
      | some d => digitsAcc (acc * 10 + d) rest
      | none => none

/-- Parse a nonempty all-digit list as a base-10 natural number. -/
def digitsVal : List Char → Option Nat
  | [] => none
  | cs => digitsAcc 0 cs

/-- Strip leading and trailing spaces (Python's `int()` ignores
surrounding whitespace). -/
def stripChars (cs : List Char) : List Char :=
  ((cs.dropWhile (fun c => c == ' ')).reverse.dropWhile (fun c => c == ' ')).reverse

/-- Sign handling of Python's `int()` on a stripped character list. -/
def pyIntCore : List Char → Option Int
  | '-' :: rest => (digitsVal rest).map (fun n => -(n : Int))
  | '+' :: rest => (digitsVal rest).map (fun n => (n : Int))
  | cs => (digitsVal cs).map (fun n => (n : Int))

/-- Python's `int(string)` (base 10): optional surrounding whitespace,
optional sign, one or more digits; `none` models the `ValueError` it
raises otherwise. -/
def pyInt (s : String) : Option Int :=
  pyIntCore (stripChars s.toList)

/-- `utils.SmartStr`: the byte-string form of a value — unicode is
utf-8 encoded (content preserved in this model), integers print in
decimal, protobuf-like objects stringify to their carried bytes. -/
def smartStr : PyVal → String
  | .str s => s
  | .uni s => s
  | .int n => toString n
  | .proto b => b

/-- Python's `long(x)` as applied to an element timestamp: integers
pass through, strings parse in base 10 (`ValueError` on failure), and
non-numeric objects raise `TypeError`. -/
def pyLong : PyVal → Except Err Int
  | .int n => .ok n
  | .str s =>
      match pyInt s with
      | some n => .ok n
      | none => .error .valueError
  | .uni s =>
      match pyInt s with
      | some n => .ok n
      | none => .error .valueError
  | .proto _ => .error .typeError

/-- The external typed-attribute registry `predicate -> type hint`
(`_CalculateAttributeStorageTypes` builds it from the AFF4 attribute
declarations; here it is an explicit association list). -/
def AttrTypes := List (String × String)

/-- Lookup of a predicate's storage type hint; absent entries default
to `"bytes"` exactly as in `_Decode`. -/
def requiredType (reg : AttrTypes) (attr : String) : String :=
  ((List.lookup attr reg).getD "bytes")

/-- `SqliteDataStore._Encode`: values exposing `SerializeToString` are
stored as their serialization, everything else as its `SmartStr` byte
string (the `buffer` wrapper is transparent in this model). -/
def dsEncode (v : PyVal) : String :=
  match v with
  | .proto b => b
  | v => smartStr v

/-- `SqliteDataStore._Decode`: dispatch on the predicate's registered
type hint — `"integer"`/`"unsigned_integer"` parse the bytes with
`int()` (raising its raw `ValueError` on non-numeric bytes),
`"string"` decodes to unicode, anything else passes the raw bytes
through. -/
def dsDecode (reg : AttrTypes) (attr : String) (value : String) : Except Err PyVal :=
  if requiredType reg attr = "integer" ∨ requiredType reg attr = "unsigned_integer" then
    match pyInt value with
    | some n => .ok (.int n)
    | none => .error .valueError
  else if requiredType reg attr = "string" then
    .ok (.uni value)
  else
    .ok (.str value)

/-- One row of the `tbl` data table:
`(subject, predicate, timestamp, value)` with the value already in its
encoded byte form. -/
structure Cell where
  subject : String
  predicate : String
  timestamp : Int
  value : String
deriving DecidableEq

/-- The two logical tables held by one subject's database file: the
versioned attribute data and the lock table (subject is the lock
table's primary key; rows are `(subject, (expires, token))`). -/
structure Tables where
  tbl : List Cell
  lock : List (String × Int × Int)
deriving DecidableEq

/-- The contents of a freshly created database file (the schema
template holds no rows). -/
def emptyTables : Tables := ⟨[], []⟩

/-- The state of one `SqliteConnection`: the durably committed tables,
the tables as seen by the open cursor (pending mutations included),
the dirty flag, and whether the connection's reentrant mutex is
held. -/
structure Conn where
  committed : Tables
  pending : Tables
  dirty : Bool
  locked : Bool
deriving DecidableEq

/-- `SqliteConnection.__enter__`: acquire the mutex; a connection
between operations has no pending uncommitted mutations. -/
def enterConn (t : Tables) : Conn :=
  { committed := t, pending := t, dirty := false, locked := true }

/-- `SqliteConnection.__exit__`: if dirty, `Flush()` commits the
pending mutations (this happens even when the block is left through an
exception); then the dirty flag is cleared and the mutex released. -/
def connExit (c : Conn) : Conn :=
  { c with committed := if c.dirty then c.pending else c.committed,
           dirty := false, locked := false }

/-- Replace the pending data table and set the dirty flag (the common
shape of every mutating statement on the connection). -/
def markTbl (c : Conn) (tbl : List Cell) : Conn :=
  { c with pending := { tbl := tbl, lock := c.pending.lock }, dirty := true }

/-- Replace the pending lock table and set the dirty flag. -/
def markLock (c : Conn) (lk : List (String × Int × Int)) : Conn :=
  { c with pending := { tbl := c.pending.tbl, lock := lk }, dirty := true }

/-- `SqliteConnection.DeleteAttribute`: delete every cell of the
subject/predicate pair and mark the connection dirty. -/
def connDeleteAttribute (c : Conn) (s p : String) : Conn :=
  markTbl c (c.pending.tbl.filter (fun cell => !(cell.subject == s && cell.predicate == p)))

/-- `SqliteConnection.SetAttribute`: append one cell (a plain
`INSERT`, no uniqueness constraint) and mark the connection dirty. -/
def connSetAttribute (c : Conn) (s p : String) (v : String) (t : Int) : Conn :=
  markTbl c (c.pending.tbl ++ [⟨s, p, t, v⟩])

/-- `SqliteConnection.DeleteAttributeRange`: delete the pair's cells
with `start <= timestamp <= end`. -/
def connDeleteAttributeRange (c : Conn) (s p : String) (tsFrom tsTo : Int) : Conn :=
  markTbl c (c.pending.tbl.filter (fun cell =>
    !(cell.subject == s && cell.predicate == p &&
      decide (tsFrom ≤ cell.timestamp) && decide (cell.timestamp ≤ tsTo))))

/-- `SqliteConnection.DeleteAttributesRegex`: delete every cell of the
subject whose predicate matches the pattern. -/
def connDeleteAttributesRegex (c : Conn) (s rx : String) : Conn :=
  markTbl c (c.pending.tbl.filter (fun cell => !(cell.subject == s && reSearch rx cell.predicate)))

/-- `SqliteConnection.DeleteSubject`: delete every data cell of the
subject. -/
def connDeleteSubject (c : Conn) (s : String) : Conn :=
  markTbl c (c.pending.tbl.filter (fun cell => !(cell.subject == s)))

/-- `SqliteConnection.GetLock`: the `(expires, token)` row of the
subject, if any (the Python `(None, None)` result becomes `none`). -/
def connGetLock (c : Conn) (s : String) : Option (Int × Int) :=
  List.lookup s c.pending.lock

/-- `SqliteConnection.SetLock`: `INSERT OR REPLACE` of the subject's
lock row. -/
def connSetLock (c : Conn) (s : String) (expires token : Int) : Conn :=
  markLock c (c.pending.lock.filter (fun r => !(r.1 == s)) ++ [(s, expires, token)])

/-- `SqliteConnection.RemoveLock`: delete the subject's lock row. -/
def connRemoveLock (c : Conn) (s : String) : Conn :=
  markLock c (c.pending.lock.filter (fun r => !(r.1 == s)))

/-- The row produced by `ORDER BY timestamp DESC LIMIT 1`: a cell of
maximal timestamp (ties between equal timestamps are engine-defined;
this model keeps the earliest such row). -/
def newestCell : List Cell → Option Cell
  | [] => none
  | c :: cs =>
      match newestCell cs with
      | none => some c
      | some m => some (if c.timestamp < m.timestamp then m else c)

/-- `SqliteConnection.GetNewestValue`: the `(value, timestamp)` of the
subject/predicate cell with the largest timestamp, if any. -/
def connGetNewestValue (c : Conn) (s p : String) : Option (String × Int) :=
  (newestCell (c.pending.tbl.filter (fun cell => cell.subject == s && cell.predicate == p))).map
    (fun m => (m.value, m.timestamp))

/-- A SQL `LIMIT` clause as the Python code emits it: the clause is
added only when the limit argument is truthy (`None` and `0` mean no
clause), and SQLite treats a negative limit as unlimited. -/
def applyLimit {α : Type} (lim : Option Int) (xs : List α) : List α :=
  match lim with
  | none => xs
  | some n => if 0 < n then xs.take n.toNat else xs

/-- The distinct predicates of a row list, in first-occurrence
order. -/
def distinctPreds (rows : List Cell) : List String :=
  rows.foldl (fun acc c => if acc.contains c.predicate then acc else acc ++ [c.predicate]) []

/-- `SqliteConnection.GetNewestFromRegex`: per matching predicate the
bare-column row selected by `MAX(timestamp) GROUP BY predicate`
(SQLite yields the max-timestamp row), columns reordered to
`(predicate, value, timestamp)`, with the optional `LIMIT`. -/
def connGetNewestFromRegex (c : Conn) (s rx : String) (lim : Option Int) :
    List (String × String × Int) :=
  let rows := c.pending.tbl.filter (fun cell => cell.subject == s && reSearch rx cell.predicate)
  applyLimit lim
    ((distinctPreds rows).filterMap (fun p =>
      (newestCell (rows.filter (fun cell => cell.predicate == p))).map
        (fun m => (p, m.value, m.timestamp))))

/-- `SqliteConnection.GetValuesFromRegex`: every cell (not
deduplicated) whose predicate matches the pattern and whose timestamp
lies in `[start, end]`, in table order, with the optional `LIMIT`. -/
def connGetValuesFromRegex (c : Conn) (s rx : String) (tsFrom tsTo : Int) (lim : Option Int) :
    List (String × String × Int) :=
  applyLimit lim
    ((c.pending.tbl.filter (fun cell =>
        cell.subject == s && reSearch rx cell.predicate &&
        decide (tsFrom ≤ cell.timestamp) && decide (cell.timestamp ≤ tsTo))).map
      (fun cell => (cell.predicate, cell.value, cell.timestamp)))

/-- Insert a cell into a timestamp-ascending list (`ORDER BY
timestamp`; the relative order of equal timestamps is
engine-defined). -/
def insertByTs (c : Cell) : List Cell → List Cell
  | [] => [c]
  | d :: ds => if c.timestamp ≤ d.timestamp then c :: d :: ds else d :: insertByTs c ds

/-- Sort cells by ascending timestamp. -/
def sortByTs : List Cell → List Cell
  | [] => []
  | c :: cs => insertByTs c (sortByTs cs)

/-- `SqliteConnection.GetValues`: the `(value, timestamp)` rows of a
subject/predicate pair inside `[start, end]`, ordered by ascending
timestamp, with the optional `LIMIT`. -/
def connGetValues (c : Conn) (s p : String) (tsFrom tsTo : Int) (lim : Option Int) :
    List (String × Int) :=
  applyLimit lim
    ((sortByTs (c.pending.tbl.filter (fun cell =>
        cell.subject == s && cell.predicate == p &&
        decide (tsFrom ≤ cell.timestamp) && decide (cell.timestamp ≤ tsTo)))).map
      (fun cell => (cell.value, cell.timestamp)))

/-- The process-wide store state at the facade boundary: one database
(pair of tables) per subject file.  The connection cache creates a
fresh file (empty tables) on first access; between operations every
connection has been flushed, so only the committed tables matter here.
The external subject-to-filename mapping is the identity in this
model. -/
structure Store where
  conns : List (String × Tables)
deriving DecidableEq

/-- The tables currently backing a subject (a fresh template database
when the subject has never been touched). -/
def getTables (st : Store) (s : String) : Tables :=
  (List.lookup s st.conns).getD emptyTables

/-- Store back a subject's tables after an operation's scope exit. -/
def putTables (st : Store) (s : String) (t : Tables) : Store :=
  ⟨st.conns.filter (fun x => !(x.1 == s)) ++ [(s, t)]⟩

/-- An access-control gate that grants everything
(`CheckDataStoreAccess` succeeding). -/
def gateAll : List String → String → Bool := fun _ _ => true

/-- An access-control gate that rejects everything
(`CheckDataStoreAccess` raising `AccessDenied`). -/
def gateNone : List String → String → Bool := fun _ _ => false

/-- Resolution of one `MultiSet` entry to the `(value, timestamp)`
actually inserted: a `(v, t)` pair uses `long(t)` (which may raise),
a bare value or a pair carrying `None` uses the call's resolved
default timestamp. -/
def resolveEntryTs (ts : Int) : SetEntry → Except Err (PyVal × Int)
  | .bare v => .ok (v, ts)
  | .pair v tv =>
      match tv with
      | none => .ok (v, ts)
      | some tval =>
          match pyLong tval with
          | .ok t => .ok (v, t)
          | .error e => .error e

/-- The inner loop of `MultiSet` over one predicate's value sequence:
encode and insert each entry in order, stopping at the first raising
entry (the connection keeps the mutations already executed). -/
def multiSetInsertSeq (subject attr : String) (ts : Int) :
    List SetEntry → Conn → Except Err Unit × Conn
  | [], c => (.ok (), c)
  | e :: rest, c =>
      match resolveEntryTs ts e with
      | .error err => (.error err, c)
      | .ok (pv, t) =>
          multiSetInsertSeq subject attr ts rest (connSetAttribute c subject attr (dsEncode pv) t)

/-- The outer loop of `MultiSet` over `values.items()`. -/
def multiSetInserts (subject : String) (ts : Int) :
    List (String × List SetEntry) → Conn → Except Err Unit × Conn
  | [], c => (.ok (), c)
  | (attr, seq) :: rest, c =>
      match multiSetInsertSeq subject attr ts seq c with
      | (.ok _, c') => multiSetInserts subject ts rest c'
      | (.error e, c') => (.error e, c')

/-- The delete phase of `MultiSet` (and the heart of
`DeleteAttributes`): delete each listed attribute in order. -/
def connDeleteAll (subject : String) (td : List String) (c : Conn) : Conn :=
  td.foldl (fun c a => connDeleteAttribute c subject a) c

/-- `SqliteDataStore.MultiSet`.  Returns the call's outcome, the store
after the connection scope exits (`__exit__` flushes the pending
mutations whenever the connection is dirty, also when the block is
left through an exception), and the final contents of the caller's
`to_delete` list (which the code extends in place with `values.keys()`
when `replace` is set).  `timestamp = none` covers both `None` and the
`NEWEST_TIMESTAMP` sentinel, for which the current time `now` is
used. -/
def multiSet (gate : List String → String → Bool) (st : Store) (subject : String)
    (values : List (String × List SetEntry)) (timestamp : Option Int) (now : Int)
    (replace : Bool) (toDel : Option (List String)) :
    Except Err Unit × Store × List String :=
  if gate [subject] "w" then
    let ts := timestamp.getD now
    let td := if replace then (toDel.getD []) ++ values.map Prod.fst else toDel.getD []
    let c1 := connDeleteAll subject td (enterConn (getTables st subject))
    let p := multiSetInserts subject ts values c1
    (p.1, putTables st subject (connExit p.2).committed, td)
  else
    (.error .accessDenied, st, toDel.getD [])

/-- `SqliteDataStore.DeleteAttributes`: with no range, delete each
attribute outright; with a range, delete each attribute's cells inside
`[start or 0, end or 2^63 - 1]`. -/
def deleteAttributes (gate : List String → String → Bool) (st : Store) (subject : String)
    (attrs : List String) (tsFrom tsTo : Option Int) : Except Err Unit × Store :=
  if gate [subject] "w" then
    let c0 := enterConn (getTables st subject)
    let c1 :=
      if tsFrom = none ∧ tsTo = none then
        connDeleteAll subject attrs c0
      else
        attrs.foldl
          (fun c a => connDeleteAttributeRange c subject a (tsFrom.getD 0) (tsTo.getD (2 ^ 63 - 1)))
          c0
    (.ok (), putTables st subject (connExit c1).committed)
  else
    (.error .accessDenied, st)

/-- `SqliteDataStore.DeleteAttributesRegex`: deletes every cell whose
predicate matches any of the patterns.  Note that, unlike every other
mutating facade operation, the source performs no
`CheckDataStoreAccess` call here; the gate argument is therefore
never consulted. -/
def deleteAttributesRegex (gate : List String → String → Bool) (st : Store) (subject : String)
    (regexes : List String) : Except Err Unit × Store :=
  let _ := gate
  let c1 := regexes.foldl (fun c rx => connDeleteAttributesRegex c subject rx)
    (enterConn (getTables st subject))
  (.ok (), putTables st subject (connExit c1).committed)

/-- `SqliteDataStore.DeleteSubject`. -/
def deleteSubject (gate : List String → String → Bool) (st : Store) (subject : String) :
    Except Err Unit × Store :=
  if gate [subject] "w" then
    let c1 := connDeleteSubject (enterConn (getTables st subject)) subject
    (.ok (), putTables st subject (connExit c1).committed)
  else
    (.error .accessDenied, st)

/-- Python truthiness of a limit argument (`None` and `0` are
falsy). -/
def truthyLimit : Option Int → Bool
  | none => false
  | some n => n != 0

/-- The `limit and len(results) >= limit` break condition shared by
the resolve loops. -/
def breakCond (lim : Option Int) (n : Nat) : Bool :=
  match lim with
  | none => false
  | some l => l != 0 && decide (l ≤ (n : Int))

/-- The `new_limit = limit; if new_limit: new_limit -= nr_results`
idiom of the resolve loops (a `None` or `0` limit stays as it is). -/
def shrinkLimit (lim : Option Int) (n : Nat) : Option Int :=
  match lim with
  | none => none
  | some l => if l = 0 then some 0 else some (l - (n : Int))

/-- `SqliteDataStore._GetStartEndTimestamp`. -/
def getStartEnd : TsQuery → Int × Int
  | .all => (0, 2 ^ 63 - 1)
  | .newest => (-1, -1)
  | .range s e => (s, e)

/-- Decode a `(predicate, value, timestamp)` row list, appending the
decoded triples to the accumulator and propagating the first decode
failure. -/
def decodePredRows (reg : AttrTypes) (acc : List (String × PyVal × Int)) :
    List (String × String × Int) → Except Err (List (String × PyVal × Int))
  | [] => .ok acc
  | (p, v, ts) :: rest =>
      match dsDecode reg p v with
      | .error e => .error e
      | .ok w => decodePredRows reg (acc ++ [(p, w, ts)]) rest

/-- The per-pattern loop of `ResolveRegex`. -/
def resolveRegexLoop (reg : AttrTypes) (c : Conn) (subject : String) (timestamp : TsQuery)
    (tsFrom tsTo : Int) (lim : Option Int) (acc : List (String × PyVal × Int)) :
    List String → Except Err (List (String × PyVal × Int))
  | [] => .ok acc
  | rx :: rest =>
      if breakCond lim acc.length then .ok acc
      else
        let newLimit := shrinkLimit lim acc.length
        let rows :=
          if timestamp = TsQuery.newest then connGetNewestFromRegex c subject rx newLimit
          else connGetValuesFromRegex c subject rx tsFrom tsTo newLimit
        match decodePredRows reg acc rows with
        | .error e => .error e
        | .ok acc' => resolveRegexLoop reg c subject timestamp tsFrom tsTo lim acc' rest

/-- `SqliteDataStore.ResolveRegex` (read-only: the scope exit finds a
clean connection, so only the result is returned).  The leading
`if limit and limit == 0` guard of the source is kept although it can
never fire (a zero limit is falsy). -/
def resolveRegex (gate : List String → String → Bool) (reg : AttrTypes) (st : Store)
    (subject : String) (regexes : List String) (timestamp : TsQuery) (lim : Option Int) :
    Except Err (List (String × PyVal × Int)) :=
  if gate [subject] "r" then
    if truthyLimit lim ∧ lim = some 0 then .ok []
    else
      let se := getStartEnd timestamp
      resolveRegexLoop reg (enterConn (getTables st subject)) subject timestamp
        se.1 se.2 lim [] regexes
  else
    .error .accessDenied

/-- Decode the `(value, timestamp)` rows of one explicit predicate. -/
def decodeValueRows (reg : AttrTypes) (p : String) (acc : List (String × PyVal × Int)) :
    List (String × Int) → Except Err (List (String × PyVal × Int))
  | [] => .ok acc
  | (v, ts) :: rest =>
      match dsDecode reg p v with
      | .error e => .error e
      | .ok w => decodeValueRows reg p (acc ++ [(p, w, ts)]) rest

/-- The per-predicate loop of `ResolveMulti`. -/
def resolveMultiLoop (reg : AttrTypes) (c : Conn) (subject : String) (timestamp : TsQuery)
    (tsFrom tsTo : Int) (lim : Option Int) (acc : List (String × PyVal × Int)) :
    List String → Except Err (List (String × PyVal × Int))
  | [] => .ok acc
  | p :: rest =>
      let step : Except Err (List (String × PyVal × Int)) :=
        if timestamp = TsQuery.newest then
          match connGetNewestValue c subject p with
          | none => .ok acc
          | some (v, ts) =>
              match dsDecode reg p v with
              | .error e => .error e
              | .ok w => .ok (acc ++ [(p, w, ts)])
        else
          decodeValueRows reg p acc (connGetValues c subject p tsFrom tsTo (shrinkLimit lim acc.length))
      match step with
      | .error e => .error e
      | .ok acc' =>
          if breakCond lim acc'.length then .ok acc'
          else resolveMultiLoop reg c subject timestamp tsFrom tsTo lim acc' rest

/-- `SqliteDataStore.ResolveMulti` (read-only). -/
def resolveMulti (gate : List String → String → Bool) (reg : AttrTypes) (st : Store)
    (subject : String) (predicates : List String) (timestamp : TsQuery) (lim : Option Int) :
    Except Err (List (String × PyVal × Int)) :=
  if gate [subject] "r" then
    if truthyLimit lim ∧ lim = some 0 then .ok []
    else
      let se := getStartEnd timestamp
      resolveMultiLoop reg (enterConn (getTables st subject)) subject timestamp
        se.1 se.2 lim [] predicates
  else
    .error .accessDenied

/-- The subject loop of `MultiResolveRegex`: the running limit is
decremented by each subject's result count, `nr` accumulates the total
result count, and the loop carries the source's (never firing)
`if limit and nr_results < 0: break` guard. -/
def multiResolveRegexLoop (gate : List String → String → Bool) (reg : AttrTypes) (st : Store)
    (regexes : List String) (timestamp : TsQuery) :
    List String → Option Int → Int → List (String × List (String × PyVal × Int)) →
    Except Err (List (String × List (String × PyVal × Int)))
  | [], _, _, acc => .ok acc
  | s :: rest, lim, nr, acc =>
      match resolveRegex gate reg st s regexes timestamp lim with
      | .error e => .error e
      | .ok values =>
          if values = [] then multiResolveRegexLoop gate reg st regexes timestamp rest lim nr acc
          else
            let nr' := nr + (values.length : Int)
            let lim' := if truthyLimit lim then lim.map (fun l => l - (values.length : Int)) else lim
            let acc' := acc ++ [(s, values)]
            if truthyLimit lim' ∧ nr' < 0 then .ok acc'
            else multiResolveRegexLoop gate reg st regexes timestamp rest lim' nr' acc'

/-- `SqliteDataStore.MultiResolveRegex`: per-subject resolution with a
globally decremented limit (the result mapping is modelled as the list
of nonempty per-subject results in subject order). -/
def multiResolveRegex (gate : List String → String → Bool) (reg : AttrTypes) (st : Store)
    (subjects : List String) (regexes : List String) (timestamp : TsQuery) (lim : Option Int) :
    Except Err (List (String × List (String × PyVal × Int))) :=
  multiResolveRegexLoop gate reg st regexes timestamp subjects lim 0 []

/-- A node of the on-disk filesystem under the configured root: a
regular file with its byte size, or a directory with its own byte size
and named children. -/
inductive FsNode where
  | file (size : Nat)
  | dir (size : Nat) (entries : List (String × FsNode))

/-- The byte size of a node when `os.path.isfile` holds for it. -/
def fsFileSize : FsNode → Option Nat
  | .file n => some n
  | .dir _ _ => none

/-- The `for subject in os.listdir(root)` loop of `Size`: add the size
of every entry that is a regular file. -/
def dirFileSizes (entries : List (String × FsNode)) : Nat :=
  entries.foldl
    (fun acc e => match e.2 with | .file n => acc + n | .dir _ _ => acc) 0

/-- `SqliteDataStore.Size`: `0` when the root path does not exist, an
`IOError` (the failure the spec's taxonomy names `StoreCorrupt`) when
it exists but is not a directory, otherwise the root directory's own
size plus the sizes of the regular files directly inside it. -/
def storeSize (root : Option FsNode) : Except Err Nat :=
  match root with
  | none => .ok 0
  | some (.file _) => .error (.ioError "expected SQLite directory to be a directory")
  | some (.dir sz entries) => .ok (sz + dirFileSizes entries)

/-- A `SqliteTransaction` object after a successful acquisition. -/
structure SqliteTransaction where
  subject : String
  expires : Int
  token : Int
  locked : Bool
deriving DecidableEq

/-- The tail of `SqliteTransaction.__init__` once the subject was
found unlocked: write the lock row inside the critical section (the
scope exit flushes it), then re-read the row outside the critical
section and fail with `TransactionError` if the stored token is not
ours (another acquirer raced us); otherwise the transaction is
Held. -/
def transactionAcquireLock (st : Store) (subject : String) (expires myToken : Int) :
    Except Err (SqliteTransaction × Store) :=
  let c2 := connExit (connSetLock (enterConn (getTables st subject)) subject expires myToken)
  match connGetLock c2 subject with
  | some (_, storedToken) =>
      if storedToken ≠ myToken then
        .error (.transactionError ("Unable to lock subject " ++ subject))
      else
        .ok (⟨subject, expires, myToken, true⟩, putTables st subject c2.committed)
  | none => .error (.transactionError ("Unable to lock subject " ++ subject))

/-- `SqliteTransaction.__init__`: read the subject's lock row; if one
exists whose `expires` is truthy and still in the future, raise
`TransactionError` (the transaction never becomes Held and the store
is untouched); otherwise take a lease until `now + leaseTime` with
this transaction's token. -/
def sqliteTransactionInit (st : Store) (subject : String) (leaseTime now myToken : Int) :
    Except Err (SqliteTransaction × Store) :=
  match connGetLock (enterConn (getTables st subject)) subject with
  | some (lockedUntil, _) =>
      if lockedUntil ≠ 0 ∧ now < lockedUntil then
        .error (.transactionError ("Subject " ++ subject ++ " is locked"))
      else
        transactionAcquireLock st subject (now + leaseTime) myToken
  | none => transactionAcquireLock st subject (now + leaseTime) myToken

/-- One step a caller can run inside a connection's critical section:
the mutating primitives of `SqliteConnection`, or an exception thrown
mid-body (reads do not change the connection state). -/
inductive ConnOp where
  | delAttr (s p : String)
  | setAttr (s p : String) (v : String) (t : Int)
  | delAttrRange (s p : String) (a b : Int)
  | delAttrsRegex (s rx : String)
  | delSubject (s : String)
  | setLockRow (s : String) (e k : Int)
  | removeLockRow (s : String)
  | raise (e : Err)

/-- Run one body step on the connection. -/
def applyConnOp (c : Conn) : ConnOp → Except Err Unit × Conn
  | .delAttr s p => (.ok (), connDeleteAttribute c s p)
  | .setAttr s p v t => (.ok (), connSetAttribute c s p v t)
  | .delAttrRange s p a b => (.ok (), connDeleteAttributeRange c s p a b)
  | .delAttrsRegex s rx => (.ok (), connDeleteAttributesRegex c s rx)
  | .delSubject s => (.ok (), connDeleteSubject c s)
  | .setLockRow s e k => (.ok (), connSetLock c s e k)
  | .removeLockRow s => (.ok (), connRemoveLock c s)
  | .raise e => (.error e, c)

/-- Run a body (a step sequence) on the connection, stopping at the
first exception as Python does. -/
def runOps : List ConnOp → Conn → Except Err Unit × Conn
  | [], c => (.ok (), c)
  | op :: rest, c =>
      match applyConnOp c op with
      | (.ok _, c') => runOps rest c'
      | (.error e, c') => (.error e, c')

/-- A full `with connection:` block over a body: `__enter__` acquires
the mutex, the body runs (possibly raising partway), and `__exit__`
always runs — flushing when dirty, clearing the flag, releasing the
mutex. -/
def scopedRun (t : Tables) (ops : List ConnOp) : Except Err Unit × Conn :=
  let p := runOps ops (enterConn t)
  (p.1, connExit p.2)

/-- Spec-side description of the delete phase of a `MultiSet` batch:
every cell of the subject whose predicate is in the delete set is
removed. -/
def specDeletedTbl (subject : String) (preds : List String) (tbl : List Cell) : List Cell :=
  tbl.filter (fun c => !(c.subject == subject && preds.contains c.predicate))

/-- Spec-side description of the cell one `MultiSet` entry inserts
(none when resolving its explicit timestamp raises). -/
def specEntryCell (subject attr : String) (ts : Int) (e : SetEntry) : Option Cell :=
  match resolveEntryTs ts e with
  | .ok (pv, t) => some ⟨subject, attr, t, dsEncode pv⟩
  | .error _ => none

/-- Spec-side description of the insert phase of a `MultiSet` batch:
the cells of all entries of all predicates, in batch order. -/
def specInsertCells (subject : String) (ts : Int)
    (values : List (String × List SetEntry)) : List Cell :=
  values.flatMap (fun av => av.2.filterMap (specEntryCell subject av.1 ts))

/-- Were any entries handed to the insert phase at all?  (Exactly when
the insert loop marks the connection dirty.) -/
def anyEntries (values : List (String × List SetEntry)) : Bool :=
  values.any (fun av => !av.2.isEmpty)

/-- A registry holding one predicate per supported type hint, for the
round-trip checks. -/
def rtReg : AttrTypes :=
  [("pi", "integer"), ("pu", "unsigned_integer"), ("ps", "string"), ("pb", "bytes")]

/-- The two-subject store of the `MultiResolveRegex` limit run: one
matching cell per subject. -/
def c5Store : Store :=
  ⟨[("s1", ⟨[⟨"s1", "a", 1, "x"⟩], []⟩), ("s2", ⟨[⟨"s2", "a", 2, "y"⟩], []⟩)]⟩

/-- The result `MultiResolveRegex` actually returns on `c5Store` with
`limit = 1`: both subjects' cells, two results in total. -/
def c5Out : List (String × List (String × PyVal × Int)) :=
  [("s1", [("a", .str "x", 1)]), ("s2", [("a", .str "y", 2)])]

/-- Looking up a key right after its upsert (delete-then-append)
yields the new value. -/
theorem lookupUpsert {β : Type} (l : List (String × β)) (s : String) (v : β) :
    List.lookup s (l.filter (fun x => !(x.1 == s)) ++ [(s, v)]) = some v := by
  induction l with
  | nil => simp [List.lookup]
  | cons a l ih =>
      obtain ⟨k, b⟩ := a
      by_cases h : k = s
      · simpa [List.filter_cons, h] using ih
      · have hkv : (s == k) = false := by simp [Ne.symm h]
        simpa [List.filter_cons, h, List.lookup, hkv] using ih

/-- Reading a subject's tables right after storing them back. -/
theorem getTables_putTables (st : Store) (s : String) (t : Tables) :
    getTables (putTables st s t) s = t := by
  simp [getTables, putTables, lookupUpsert]

/-- An empty delete set removes nothing. -/
theorem specDeletedTbl_nil (subject : String) (tbl : List Cell) :
    specDeletedTbl subject [] tbl = tbl := by
  simp [specDeletedTbl]

/-- Deleting one predicate and then a set is deleting the enlarged
set. -/
theorem specDeletedTbl_cons (subject a : String) (td : List String) (tbl : List Cell) :
    specDeletedTbl subject td
      (tbl.filter (fun x => !(x.subject == subject && x.predicate == a)))
      = specDeletedTbl subject (a :: td) tbl := by
  simp only [specDeletedTbl, List.filter_filter]
  apply List.filter_congr
  intro x _
  rw [List.contains_cons]
  cases hs : x.subject == subject <;> cases hp : x.predicate == a <;>
    cases htd : td.contains x.predicate <;> rfl

/-- The delete phase of `MultiSet` realises its spec-side description
and dirties the connection exactly when the delete set is nonempty. -/
theorem connDeleteAll_spec (subject : String) (td : List String) (c : Conn) :
    connDeleteAll subject td c =
      { c with
        pending := { tbl := specDeletedTbl subject td c.pending.tbl, lock := c.pending.lock },
        dirty := (c.dirty || !td.isEmpty) } := by
  induction td generalizing c with
  | nil => simp [connDeleteAll, specDeletedTbl_nil]
  | cons a rest ih =>
      rw [show connDeleteAll subject (a :: rest) c
            = connDeleteAll subject rest (connDeleteAttribute c subject a) from rfl, ih]
      simp only [connDeleteAttribute, markTbl, specDeletedTbl_cons]
      simp

/-- A successful run of the `MultiSet` insert loop over one
predicate's sequence appends exactly the entries' cells, touches
nothing else, and dirties the connection exactly when the sequence is
nonempty. -/
theorem multiSetInsertSeq_ok (subject attr : String) (ts : Int) (seq : List SetEntry)
    (c c' : Conn) (h : multiSetInsertSeq subject attr ts seq c = (.ok (), c')) :
    c' = { c with
      pending := { tbl := c.pending.tbl ++ seq.filterMap (specEntryCell subject attr ts),
                   lock := c.pending.lock },
      dirty := (c.dirty || !seq.isEmpty) } := by
  induction seq generalizing c with
  | nil =>
      simp only [multiSetInsertSeq, Prod.mk.injEq, true_and] at h
      simp [← h]
  | cons e rest ih =>
      cases hr : resolveEntryTs ts e with
      | error err => simp [multiSetInsertSeq, hr] at h
      | ok pt =>
          obtain ⟨pv, t⟩ := pt
          simp only [multiSetInsertSeq, hr] at h
          rw [ih _ h]
          simp only [connSetAttribute, markTbl, List.filterMap_cons, specEntryCell, hr]
          simp [List.append_assoc]

/-- A successful run of the full `MultiSet` insert phase appends
exactly the batch's cells and dirties the connection exactly when any
entry exists. -/
theorem multiSetInserts_ok (subject : String) (ts : Int)
    (values : List (String × List SetEntry)) (c c' : Conn)
    (h : multiSetInserts subject ts values c = (.ok (), c')) :
    c' = { c with
      pending := { tbl := c.pending.tbl ++ specInsertCells subject ts values,
                   lock := c.pending.lock },
      dirty := (c.dirty || anyEntries values) } := by
  induction values generalizing c with
  | nil =>
      simp only [multiSetInserts, Prod.mk.injEq, true_and] at h
      simp [← h, specInsertCells, anyEntries]
  | cons av rest ih =>
      obtain ⟨attr, seq⟩ := av
      cases hS : multiSetInsertSeq subject attr ts seq c with
      | mk r c1 =>
          cases r with
          | error e => simp [multiSetInserts, hS] at h
          | ok u =>
              cases u
              simp only [multiSetInserts, hS] at h
              rw [ih _ h, multiSetInsertSeq_ok subject attr ts seq c c1 hS]
              simp [specInsertCells, anyEntries, List.append_assoc, Bool.or_assoc]

/-- A batch with no entries inserts no cells. -/
theorem specInsertCells_empty (subject : String) (ts : Int)
    (values : List (String × List SetEntry)) (h : anyEntries values = false) :
    specInsertCells subject ts values = [] := by
  induction values with
  | nil => rfl
  | cons av rest ih =>
      simp only [anyEntries, List.any_cons, Bool.or_eq_false_iff, Bool.not_eq_false'] at h
      obtain ⟨h1, h2⟩ := h
      have hrest : specInsertCells subject ts rest = [] := ih (by simpa [anyEntries] using h2)
      simp [specInsertCells, List.isEmpty_iff.mp h1] at hrest ⊢
      simpa [specInsertCells] using hrest

/-- The shared core of the `MultiSet` correctness results: when the
call returns without raising, the subject's stored tables afterwards
are exactly the old tables with the delete set removed and all batch
cells appended (all deletes, then all inserts), locks untouched. -/
theorem multiSet_ok_tables (gate : List String → String → Bool) (st : Store) (subject : String)
    (values : List (String × List SetEntry)) (timestamp : Option Int) (now : Int)
    (replace : Bool) (toDel : Option (List String)) (st' : Store) (td' : List String)
    (h : multiSet gate st subject values timestamp now replace toDel = (.ok (), st', td')) :
    getTables st' subject =
      { tbl := specDeletedTbl subject td' (getTables st subject).tbl
                ++ specInsertCells subject (timestamp.getD now) values,
        lock := (getTables st subject).lock } := by
  by_cases hg : gate [subject] "w"
  · simp only [multiSet, hg, if_true, Prod.mk.injEq] at h
    obtain ⟨h1, h2, h3⟩ := h
    have hp : multiSetInserts subject (timestamp.getD now) values
        (connDeleteAll subject td' (enterConn (getTables st subject)))
        = (.ok (), (multiSetInserts subject (timestamp.getD now) values
            (connDeleteAll subject td' (enterConn (getTables st subject)))).2) := by
      rw [← h3, ← h1]
    have hio := multiSetInserts_ok subject (timestamp.getD now) values _ _ hp
    rw [h3] at h2
    rw [← h2, getTables_putTables, hio, connDeleteAll_spec]
    simp only [connExit, enterConn]
    cases htd : td'.isEmpty <;> cases hany : anyEntries values
    · simp [htd, hany]
    · simp [htd, hany]
    · obtain rfl : td' = [] := List.isEmpty_iff.mp htd
      simp [hany, specDeletedTbl_nil, specInsertCells_empty _ _ _ hany]
    · simp [htd, hany]
  · simp [multiSet, hg] at h

/-- Every body step preserves the connection invariant "not dirty
implies nothing pending beyond the committed state" (mutators set the
dirty flag; an exception changes nothing). -/
theorem applyConnOp_flush_inv (c : Conn) (op : ConnOp)
    (h : c.dirty = false → c.pending = c.committed) :
    (applyConnOp c op).2.dirty = false → (applyConnOp c op).2.pending = (applyConnOp c op).2.committed := by
  cases op <;>
    simp [applyConnOp, connDeleteAttribute, connSetAttribute, connDeleteAttributeRange,
          connDeleteAttributesRegex, connDeleteSubject, connSetLock, connRemoveLock,
          markTbl, markLock]
  exact h

/-- Whole bodies preserve the flush invariant, also when they stop at
an exception. -/
theorem runOps_flush_inv (ops : List ConnOp) (c : Conn)
    (h : c.dirty = false → c.pending = c.committed) :
    (runOps ops c).2.dirty = false → (runOps ops c).2.pending = (runOps ops c).2.committed := by
  induction ops generalizing c with
  | nil => simpa [runOps] using h
  | cons op rest ih =>
      cases hA : applyConnOp c op with
      | mk r c1 =>
          have h1 : c1.dirty = false → c1.pending = c1.committed := by
        
            have := applyConnOp_flush_inv c op h
            rw [hA] at this
            exact this
          cases r with
          | ok u => simpa only [runOps, hA] using ih c1 h1
          | error e => simpa only [runOps, hA] using h1

/-- The running total of `Size`'s directory walk equals the sum of the
sizes of the regular-file entries. -/
theorem dirFileSizes_eq_sum (entries : List (String × FsNode)) :
    dirFileSizes entries = ((entries.map Prod.snd).filterMap fsFileSize).sum := by
  have key : ∀ acc : Nat,
      entries.foldl (fun acc e => match e.2 with | .file n => acc + n | .dir _ _ => acc) acc
        = acc + ((entries.map Prod.snd).filterMap fsFileSize).sum := by
    induction entries with
    | nil => intro acc; simp
    | cons e rest ih =>
        intro acc
        obtain ⟨nm, nd⟩ := e
        cases nd with
        | file n =>
            rw [List.foldl_cons, ih]
            simp only [List.map_cons, List.filterMap_cons, fsFileSize, List.sum_cons]
            rw [Nat.add_assoc]
        | dir sz es =>
            rw [List.foldl_cons, ih]
            simp only [List.map_cons, List.filterMap_cons, fsFileSize]
  simpa [dirFileSizes] using key 0

/-- C7: for every supported type hint, decoding an encoded
representative value gives the value back — empty and non-ascii
unicode text under the string hint, zero, a negative integer and the
maximum 64-bit signed integer under the integer hints, and the empty
byte blob under the default bytes hint. -/
theorem encode_decode_roundtrip :
    dsDecode rtReg "ps" (dsEncode (.uni "")) = .ok (.uni "") ∧
    dsDecode rtReg "ps" (dsEncode (.uni "héllo wörld")) = .ok (.uni "héllo wörld") ∧
    dsDecode rtReg "pi" (dsEncode (.int 0)) = .ok (.int 0) ∧
    dsDecode rtReg "pi" (dsEncode (.int (-5))) = .ok (.int (-5)) ∧
    dsDecode rtReg "pi" (dsEncode (.int 9223372036854775807)) = .ok (.int 9223372036854775807) ∧
    dsDecode rtReg "pu" (dsEncode (.int 9223372036854775807)) = .ok (.int 9223372036854775807) ∧
    dsDecode rtReg "pb" (dsEncode (.str "")) = .ok (.str "") := by
  decide

/-- C8: `Size` returns 0 when the root does not exist, raises the
not-a-directory `IOError` (the spec's `StoreCorrupt`) when the root is
a file, and otherwise returns the root directory's byte size plus the
sum of the byte sizes of the regular files directly inside it. -/
theorem storeSize_spec :
    storeSize none = .ok 0 ∧
    (∀ sz : Nat, storeSize (some (.file sz))
        = .error (.ioError "expected SQLite directory to be a directory")) ∧
    (∀ (sz : Nat) (entries : List (String × FsNode)),
        storeSize (some (.dir sz entries))
          = .ok (sz + ((entries.map Prod.snd).filterMap fsFileSize).sum)) := by
  refine ⟨rfl, fun sz => rfl, fun sz entries => ?_⟩
  simp [storeSize, dirFileSizes_eq_sum]

/-- C9: leaving a connection's critical section — by any body built
from the connection's primitives, including bodies that raise partway
— always leaves the connection with the dirty flag cleared, the mutex
released, and nothing pending beyond the committed state (the flush
ran before the release whenever the body dirtied the connection). -/
theorem scoped_section_flushes_before_release (t : Tables) (ops : List ConnOp) :
    (scopedRun t ops).2.dirty = false ∧ (scopedRun t ops).2.locked = false ∧
    (scopedRun t ops).2.committed = (scopedRun t ops).2.pending := by
  refine ⟨rfl, rfl, ?_⟩
  have hinv := runOps_flush_inv ops (enterConn t) (fun _ => rfl)
  cases hd : (runOps ops (enterConn t)).2.dirty with
  | true => simp [scopedRun, connExit, hd]
  | false => simp [scopedRun, connExit, hd, hinv hd]

/-- C6 (amended): for every predicate whose registered hint is
`integer` or `unsigned_integer` and every stored byte string that
`int()` cannot parse, `_Decode` raises — but the raised error is the
raw `ValueError` of `int()`, propagated unmasked, not a distinct typed
`DecodeError`. -/
theorem integer_decode_raises (reg : AttrTypes) (attr v : String)
    (hint : requiredType reg attr = "integer" ∨ requiredType reg attr = "unsigned_integer")
    (hbad : pyInt v = none) :
    dsDecode reg attr v = .error .valueError := by
  unfold dsDecode
  rw [if_pos hint, hbad]

/-- Witness for the amended C6 at the concrete registry
`p -> integer` and the non-numeric bytes `"abc"`. -/
theorem integer_decode_raises_witness :
    (requiredType ([("p", "integer")] : AttrTypes) "p" = "integer" ∨
      requiredType ([("p", "integer")] : AttrTypes) "p" = "unsigned_integer") ∧
    pyInt "abc" = none ∧
    dsDecode ([("p", "integer")] : AttrTypes) "p" "abc" = .error .valueError :=
  ⟨Or.inl (by decide), by decide,
    integer_decode_raises ([("p", "integer")] : AttrTypes) "p" "abc" (Or.inl (by decide))
      (by decide)⟩

/-- Counterexample to C6 as stated: the decode failure on an
integer-typed cell holding the bytes `"abc"` is the raw `int()` parse
exception (`ValueError`), not a typed `DecodeError`. -/
theorem decode_error_not_typed_counterexample :
    dsDecode ([("p", "integer")] : AttrTypes) "p" "abc" = .error .valueError ∧
    Err.valueError ≠ Err.decodeError ∧
    dsDecode ([("p", "integer")] : AttrTypes) "p" "abc" ≠ .error .decodeError := by
  decide

/-- C5 evidence: with `limit = 1` over two subjects holding one
matching cell each, `MultiResolveRegex` returns both cells — two
results, exceeding the limit — because the exhausted limit reaches `0`,
which is falsy and therefore treated as "no limit" for the next
subject, and the loop's own break guard (`nr_results < 0`) never
fires. -/
theorem multiResolveRegex_exceeds_limit :
    multiResolveRegex gateAll [] c5Store ["s1", "s2"] ["a"] .newest (some 1) = .ok c5Out ∧
    ¬ ((c5Out.map (fun r => r.2.length)).sum ≤ 1) := by
  decide

/-- C10: with `replace` set and a caller-supplied `to_delete` list,
`MultiSet` extends the caller's list in place with every predicate key
of the values mapping, so a call with a nonempty values mapping grows
the list. -/
theorem multiSet_extends_to_delete (gate : List String → String → Bool) (st : Store)
    (subject : String) (values : List (String × List SetEntry)) (timestamp : Option Int)
    (now : Int) (td0 : List String)
    (hg : gate [subject] "w" = true) (hv : values ≠ []) :
    (multiSet gate st subject values timestamp now true (some td0)).2.2
        = td0 ++ values.map Prod.fst ∧
    td0.length < (multiSet gate st subject values timestamp now true (some td0)).2.2.length := by
  constructor
  · simp [multiSet, hg]
  · simp only [multiSet, hg, if_true]
    cases values with
    | nil => exact absurd rfl hv
    | cons a l => simp

/-- Witness for C10 at a one-predicate batch appended to the caller's
list `["q"]`. -/
theorem multiSet_extends_to_delete_witness :
    (multiSet gateAll ⟨[]⟩ "s" [("p", [SetEntry.bare (.str "v")])] (some 7) 0 true
        (some ["q"])).2.2
      = ["q"] ++ ([("p", [SetEntry.bare (PyVal.str "v")])].map Prod.fst) ∧
    (["q"] : List String).length
      < (multiSet gateAll ⟨[]⟩ "s" [("p", [SetEntry.bare (.str "v")])] (some 7) 0 true
          (some ["q"])).2.2.length :=
  multiSet_extends_to_delete gateAll ⟨[]⟩ "s" [("p", [SetEntry.bare (.str "v")])] (some 7) 0
    ["q"] rfl (by decide)

/-- C1 (amended): a `MultiSet` call that returns without raising has
applied its whole batch — the subject's tables afterwards are the old
tables with every predicate of the final delete set removed and every
entry's cell appended.  (The all-or-nothing half of the original claim
fails: when a step raises partway, the already-executed mutations are
still committed by the scope exit — see the counterexample.) -/
theorem multiSet_success_applies_full_batch (gate : List String → String → Bool) (st : Store)
    (subject : String) (values : List (String × List SetEntry)) (timestamp : Option Int)
    (now : Int) (replace : Bool) (toDel : Option (List String)) (st' : Store)
    (td' : List String)
    (h : multiSet gate st subject values timestamp now replace toDel = (.ok (), st', td')) :
    getTables st' subject =
      { tbl := specDeletedTbl subject td' (getTables st subject).tbl
                ++ specInsertCells subject (timestamp.getD now) values,
        lock := (getTables st subject).lock } :=
  multiSet_ok_tables gate st subject values timestamp now replace toDel st' td' h

/-- Witness for the amended C1: a concrete successful batch on a fresh
store. -/
theorem multiSet_success_applies_full_batch_witness :
    getTables (⟨[("s", ⟨[⟨"s", "p", 7, "v"⟩], []⟩)]⟩ : Store) "s"
      = { tbl := specDeletedTbl "s" ["p"] (getTables (⟨[]⟩ : Store) "s").tbl
                  ++ specInsertCells "s" ((some (7 : Int)).getD 0)
                      [("p", [SetEntry.bare (.str "v")])],
          lock := (getTables (⟨[]⟩ : Store) "s").lock } :=
  multiSet_success_applies_full_batch gateAll ⟨[]⟩ "s" [("p", [SetEntry.bare (.str "v")])]
    (some 7) 0 true none ⟨[("s", ⟨[⟨"s", "p", 7, "v"⟩], []⟩)]⟩ ["p"] (by decide)

/-- Counterexample to C1 as stated: a batch whose single insert step
raises (its explicit timestamp `"abc"` fails `long()`) still persists
the batch's delete — the call raises `ValueError`, yet the subject's
storage has changed: the old cell of `p` is gone. -/
theorem multiSet_failing_batch_persists_counterexample :
    (multiSet gateAll (⟨[("s", ⟨[⟨"s", "p", 1, "old"⟩], []⟩)]⟩ : Store) "s"
        [("p", [SetEntry.pair (.str "v") (some (.str "abc"))])] (some 5) 0 true none).1
      = .error .valueError ∧
    (multiSet gateAll (⟨[("s", ⟨[⟨"s", "p", 1, "old"⟩], []⟩)]⟩ : Store) "s"
        [("p", [SetEntry.pair (.str "v") (some (.str "abc"))])] (some 5) 0 true none).2.1
      ≠ ⟨[("s", ⟨[⟨"s", "p", 1, "old"⟩], []⟩)]⟩ ∧
    getTables ((multiSet gateAll (⟨[("s", ⟨[⟨"s", "p", 1, "old"⟩], []⟩)]⟩ : Store) "s"
        [("p", [SetEntry.pair (.str "v") (some (.str "abc"))])] (some 5) 0 true none).2.1) "s"
      = ⟨[], []⟩ := by
  decide

/-- C2 (amended): every gated facade operation — `MultiSet`,
`DeleteAttributes`, `DeleteSubject`, `ResolveRegex`, `ResolveMulti`
and (through its per-subject `ResolveRegex` calls)
`MultiResolveRegex` — fails with `AccessDenied` and leaves the store
untouched when the access-control gate rejects the operation's intent
on its subject.  (`DeleteAttributesRegex` is the exception: it never
consults the gate — see the counterexample.) -/
theorem gate_rejection_blocks_operations (gate : List String → String → Bool)
    (reg : AttrTypes) (st : Store) (subject : String)
    (values : List (String × List SetEntry)) (timestamp : Option Int) (now : Int)
    (replace : Bool) (toDel : Option (List String)) (attrs : List String)
    (tsFrom tsTo : Option Int) (preds regexes : List String) (tq : TsQuery)
    (lim : Option Int) (s0 : String) (rest : List String)
    (hw : gate [subject] "w" = false) (hr : gate [subject] "r" = false)
    (h0 : gate [s0] "r" = false) :
    multiSet gate st subject values timestamp now replace toDel
        = (.error .accessDenied, st, toDel.getD []) ∧
    deleteAttributes gate st subject attrs tsFrom tsTo = (.error .accessDenied, st) ∧
    deleteSubject gate st subject = (.error .accessDenied, st) ∧
    resolveRegex gate reg st subject regexes tq lim = .error .accessDenied ∧
    resolveMulti gate reg st subject preds tq lim = .error .accessDenied ∧
    multiResolveRegex gate reg st (s0 :: rest) regexes tq lim = .error .accessDenied := by
  refine ⟨?_, ?_, ?_, ?_, ?_, ?_⟩
  · simp [multiSet, hw]
  · simp [deleteAttributes, hw]
  · simp [deleteSubject, hw]
  · simp [resolveRegex, hr]
  · simp [resolveMulti, hr]
  · simp [multiResolveRegex, multiResolveRegexLoop, resolveRegex, h0]

/-- Witness for the amended C2 with the all-rejecting gate on concrete
arguments. -/
theorem gate_rejection_blocks_operations_witness :
    multiSet gateNone (⟨[]⟩ : Store) "s" [("p", [SetEntry.bare (.str "v")])] (some 1) 0 true
        (some ["q"]) = (.error .accessDenied, (⟨[]⟩ : Store), (some ["q"]).getD []) ∧
    deleteAttributes gateNone (⟨[]⟩ : Store) "s" ["p"] none none
        = (.error .accessDenied, (⟨[]⟩ : Store)) ∧
    deleteSubject gateNone (⟨[]⟩ : Store) "s" = (.error .accessDenied, (⟨[]⟩ : Store)) ∧
    resolveRegex gateNone [] (⟨[]⟩ : Store) "s" ["a"] .newest none = .error .accessDenied ∧
    resolveMulti gateNone [] (⟨[]⟩ : Store) "s" ["p"] .newest none = .error .accessDenied ∧
    multiResolveRegex gateNone [] (⟨[]⟩ : Store) ("s" :: []) ["a"] .newest none
        = .error .accessDenied :=
  gate_rejection_blocks_operations gateNone [] ⟨[]⟩ "s" [("p", [SetEntry.bare (.str "v")])]
    (some 1) 0 true (some ["q"]) ["p"] none none ["p"] ["a"] .newest none "s" [] rfl rfl rfl

/-- Counterexample to C2 as stated: `DeleteAttributesRegex` deletes
matching cells even under an all-rejecting gate — it neither raises
`AccessDenied` nor leaves storage unchanged. -/
theorem deleteAttributesRegex_bypasses_gate_counterexample :
    deleteAttributesRegex gateNone (⟨[("s", ⟨[⟨"s", "p", 1, "x"⟩], []⟩)]⟩ : Store) "s" ["p"]
      = (.ok (), ⟨[("s", ⟨[], []⟩)]⟩) ∧
    (⟨[("s", ⟨[], []⟩)]⟩ : Store) ≠ ⟨[("s", ⟨[⟨"s", "p", 1, "x"⟩], []⟩)]⟩ := by
  decide

/-- When the subject's lock row is unexpired (truthy `expires` in the
future), lease acquisition fails with the locked `TransactionError`
regardless of the requester's token. -/
theorem lockedInitFails (st : Store) (subject : String) (leaseTime now myToken e tok : Int)
    (hlk : List.lookup subject (getTables st subject).lock = some (e, tok))
    (hnow : 0 ≤ now) (hlt : now < e) :
    sqliteTransactionInit st subject leaseTime now myToken
      = .error (.transactionError ("Subject " ++ subject ++ " is locked")) := by
  have he : e ≠ 0 := by omega
  unfold sqliteTransactionInit
  have hg : connGetLock (enterConn (getTables st subject)) subject = some (e, tok) := hlk
  rw [hg]
  simp only []
  rw [if_pos ⟨he, hlt⟩]

/-- A successful `transactionAcquireLock` yields the Held transaction
with this call's expiry and token, and stores the upserted lock row. -/
theorem transactionAcquireLock_ok (st : Store) (subject : String) (expires myToken : Int)
    (txn : SqliteTransaction) (st' : Store)
    (h : transactionAcquireLock st subject expires myToken = .ok (txn, st')) :
    txn = ⟨subject, expires, myToken, true⟩ ∧
    getTables st' subject =
      { tbl := (getTables st subject).tbl,
        lock := (getTables st subject).lock.filter (fun r => !(r.1 == subject))
                  ++ [(subject, expires, myToken)] } := by
  have hlk : connGetLock
      (connExit (connSetLock (enterConn (getTables st subject)) subject expires myToken))
      subject = some (expires, myToken) := by
    simp [connGetLock, connExit, connSetLock, markLock, enterConn, lookupUpsert]
  unfold transactionAcquireLock at h
  simp only [hlk] at h
  rw [if_neg (fun hh => hh rfl)] at h
  rw [Except.ok.injEq, Prod.mk.injEq] at h
  obtain ⟨h1, h2⟩ := h
  refine ⟨h1.symm, ?_⟩
  rw [← h2, getTables_putTables]
  simp [connExit, connSetLock, markLock, enterConn]

/-- C3: (a) when a lock row with a future truthy expiry and another
owner's token exists, lease acquisition raises `TransactionError` and
never yields a Held transaction; (b) consequently, after one
acquisition succeeds, a second acquisition on the same subject by a
different token before the lease expires raises `TransactionError`. -/
theorem lease_second_acquire_fails :
    (∀ (st : Store) (subject : String) (leaseTime now myToken e tok : Int),
        List.lookup subject (getTables st subject).lock = some (e, tok) →
        tok ≠ myToken → 0 ≤ now → now < e →
        sqliteTransactionInit st subject leaseTime now myToken
          = .error (.transactionError ("Subject " ++ subject ++ " is locked"))) ∧
    (∀ (st st' : Store) (subject : String) (lease1 now1 tok1 lease2 now2 tok2 : Int)
        (txn : SqliteTransaction),
        sqliteTransactionInit st subject lease1 now1 tok1 = .ok (txn, st') →
        tok1 ≠ tok2 → 0 ≤ now2 → now2 < txn.expires →
        sqliteTransactionInit st' subject lease2 now2 tok2
          = .error (.transactionError ("Subject " ++ subject ++ " is locked"))) := by
  constructor
  · intro st subject leaseTime now myToken e tok hlk _ hnow hlt
    exact lockedInitFails st subject leaseTime now myToken e tok hlk hnow hlt
  · intro st st' subject lease1 now1 tok1 lease2 now2 tok2 txn hok _ hnow hlt
    have hacq : transactionAcquireLock st subject (now1 + lease1) tok1 = .ok (txn, st') := by
      unfold sqliteTransactionInit at hok
      cases hg : connGetLock (enterConn (getTables st subject)) subject with
      | none => rw [hg] at hok; exact hok
      | some p =>
          obtain ⟨lu, tk⟩ := p
          simp only [hg] at hok
          by_cases hc : lu ≠ 0 ∧ now1 < lu
          · rw [if_pos hc] at hok; exact absurd hok (by simp)
          · rw [if_neg hc] at hok; exact hok
    obtain ⟨htxn, hst⟩ := transactionAcquireLock_ok st subject (now1 + lease1) tok1 txn st' hacq
    subst htxn
    exact lockedInitFails st' subject lease2 now2 tok2 (now1 + lease1) tok1
      (by rw [hst]; exact lookupUpsert _ _ _) hnow hlt

/-- Witness for C3: a concrete locked store rejects a foreign
acquisition, and a fresh store's successful acquisition makes a second
concurrent one fail. -/
theorem lease_second_acquire_fails_witness :
    sqliteTransactionInit (⟨[("s", ⟨[], [("s", 99, 7)]⟩)]⟩ : Store) "s" 100 5 3
      = .error (.transactionError ("Subject " ++ "s" ++ " is locked")) ∧
    sqliteTransactionInit (⟨[("s", ⟨[], [("s", 110, 1)]⟩)]⟩ : Store) "s" 100 50 2
      = .error (.transactionError ("Subject " ++ "s" ++ " is locked")) :=
  ⟨lease_second_acquire_fails.1 ⟨[("s", ⟨[], [("s", 99, 7)]⟩)]⟩ "s" 100 5 3 99 7 (by decide)
      (by decide) (by decide) (by decide),
    lease_second_acquire_fails.2 ⟨[]⟩ ⟨[("s", ⟨[], [("s", 110, 1)]⟩)]⟩ "s" 100 10 1 100 50 2
      ⟨"s", 110, 1, true⟩ (by decide) (by decide) (by decide) (by decide)⟩

/-- After deleting a predicate from a table, no cell of that
subject/predicate pair survives the deletion. -/
theorem filter_specDeleted_self (subject p : String) (tbl : List Cell) :
    (specDeletedTbl subject [p] tbl).filter
        (fun cell => cell.subject == subject && cell.predicate == p) = [] := by
  simp only [specDeletedTbl, List.filter_filter]
  rw [List.filter_eq_nil_iff]
  intro x _
  cases hs : x.subject == subject <;> cases hp : x.predicate == p <;> simp [hs, hp]
  exact eq_of_beq hp

/-- When a subject holds exactly one cell of predicate `p`, a `NEWEST`
`ResolveMulti` on `[p]` returns exactly that cell, decoded. -/
theorem resolveMulti_newest_single (gate : List String → String → Bool) (reg : AttrTypes)
    (st : Store) (subject p : String) (enc : String) (t : Int) (w : PyVal)
    (hr : gate [subject] "r" = true)
    (hT : (getTables st subject).tbl.filter
        (fun cell => cell.subject == subject && cell.predicate == p) = [⟨subject, p, t, enc⟩])
    (hdec : dsDecode reg p enc = .ok w) :
    resolveMulti gate reg st subject [p] .newest none = .ok [(p, w, t)] := by
  simp only [resolveMulti, hr, if_true]
  rw [if_neg (by simp [truthyLimit])]
  simp only [resolveMultiLoop, connGetNewestValue, enterConn]
  rw [hT]
  simp [newestCell, hdec, breakCond, resolveMultiLoop]

/-- C4 (amended): after `MultiSet(S, {P: [v]}, t, replace=true)`, a
`NEWEST` `ResolveMulti(S, [P])` returns exactly one result
`(P, w, t)` where `w` is `v` routed through encode and decode under
`P`'s registered type hint — equal to `v` exactly when `v` round-trips
under that hint (the original claim's `[(P, v, t)]` fails for values
that do not, see the counterexample). -/
theorem multiSet_then_resolveMulti_newest (gate : List String → String → Bool)
    (reg : AttrTypes) (st : Store) (subject p : String) (v : PyVal) (t now : Int) (w : PyVal)
    (hw : gate [subject] "w" = true) (hr : gate [subject] "r" = true)
    (hdec : dsDecode reg p (dsEncode v) = .ok w) :
    (multiSet gate st subject [(p, [SetEntry.bare v])] (some t) now true none).1 = .ok () ∧
    resolveMulti gate reg
        (multiSet gate st subject [(p, [SetEntry.bare v])] (some t) now true none).2.1
        subject [p] .newest none
      = .ok [(p, w, t)] := by
  have h1 : (multiSet gate st subject [(p, [SetEntry.bare v])] (some t) now true none).1
      = .ok () := by
    simp [multiSet, hw, multiSetInserts, multiSetInsertSeq, resolveEntryTs]
  refine ⟨h1, ?_⟩
  have h3 : (multiSet gate st subject [(p, [SetEntry.bare v])] (some t) now true none).2.2
      = [p] := by
    simp [multiSet, hw]
  have h : multiSet gate st subject [(p, [SetEntry.bare v])] (some t) now true none
      = (.ok (),
          (multiSet gate st subject [(p, [SetEntry.bare v])] (some t) now true none).2.1,
          [p]) := by
    rw [← h1, ← h3]
  have ht := multiSet_ok_tables gate st subject [(p, [SetEntry.bare v])] (some t) now true
    none _ _ h
  have hcells : specInsertCells subject ((some t).getD now) [(p, [SetEntry.bare v])]
      = [⟨subject, p, t, dsEncode v⟩] := by
    simp [specInsertCells, specEntryCell, resolveEntryTs]
  rw [hcells] at ht
  refine resolveMulti_newest_single gate reg _ subject p (dsEncode v) t w hr ?_ hdec
  rw [ht]
  simp [List.filter_append, filter_specDeleted_self]

/-- Witness for the amended C4 on a store already holding an older
version of the predicate. -/
theorem multiSet_then_resolveMulti_newest_witness :
    (multiSet gateAll (⟨[("s", ⟨[⟨"s", "p", 1, "old"⟩], []⟩)]⟩ : Store) "s"
        [("p", [SetEntry.bare (.str "vv")])] (some 7) 0 true none).1 = .ok () ∧
    resolveMulti gateAll []
        (multiSet gateAll (⟨[("s", ⟨[⟨"s", "p", 1, "old"⟩], []⟩)]⟩ : Store) "s"
            [("p", [SetEntry.bare (.str "vv")])] (some 7) 0 true none).2.1
        "s" ["p"] .newest none
      = .ok [("p", .str "vv", 7)] :=
  multiSet_then_resolveMulti_newest gateAll [] ⟨[("s", ⟨[⟨"s", "p", 1, "old"⟩], []⟩)]⟩ "s" "p"
    (.str "vv") 7 0 (.str "vv") rfl rfl (by decide)

/-- Counterexample to C4 as stated: under an `integer` type hint, the
value `"abc"` is stored fine but `ResolveMulti` then raises the decode
`ValueError` instead of returning `[(P, v, t)]`. -/
theorem resolveMulti_after_multiSet_decode_counterexample :
    (multiSet gateAll (⟨[]⟩ : Store) "s" [("p", [SetEntry.bare (.str "abc")])] (some 1) 0 true
        none).1 = .ok () ∧
    resolveMulti gateAll ([("p", "integer")] : AttrTypes)
        (multiSet gateAll (⟨[]⟩ : Store) "s" [("p", [SetEntry.bare (.str "abc")])] (some 1) 0
            true none).2.1
        "s" ["p"] .newest none
      = .error .valueError ∧
    resolveMulti gateAll ([("p", "integer")] : AttrTypes)
        (multiSet gateAll (⟨[]⟩ : Store) "s" [("p", [SetEntry.bare (.str "abc")])] (some 1) 0
            true none).2.1
        "s" ["p"] .newest none
      ≠ .ok [("p", PyVal.str "abc", 1)] := by
  decide
